import Mathlib

/-!
Verification development for the korjournal persistence and ingestion core.

The definitions below are a shallow embedding of the TypeScript sources:
  * `src/lib/csvParser.ts`   — CSV record parser (`parseCSVData`, `cleanText`);
  * the upload route handler — encoding detection and the import tally loop;
  * `src/lib/database.ts`    — store: `isSQLiteCorruptionError`, `validateDatabase`,
    `recoverDatabase`, `getDatabase`, `insertTrip`, `getTrips`.

Text is modelled as `List Char` (JS strings are sequences of UTF-16 code points;
all inputs of interest stay within the BMP where the two views agree).
JavaScript numbers that arise here are results of `parseInt`/`parseFloat` on
decimal digit strings, so they are modelled exactly as scaled decimal integers
`m / 10^e`, plus a `nan` value with IEEE comparison semantics
(every comparison with NaN is false).  This avoids floating-point rounding,
which never occurs on the magnitudes involved.
-/

/-- A JavaScript number as produced by `parseInt`/`parseFloat` on decimal
strings: either NaN or the rational `m / 10 ^ e`.  Values are kept in
canonical form (`e = 0` or `10 ∤ m`), so structural equality coincides with
numeric equality. -/
inductive JSNum where
  | nan : JSNum
  | num (m : Int) (e : Nat) : JSNum
  deriving DecidableEq, Repr

namespace JSNum

/-- Strip factors of ten shared between the mantissa and the scale, producing
the canonical representation of `m / 10 ^ e`. -/
def canon : Int → Nat → JSNum
  | m, 0 => .num m 0
  | m, e + 1 => if m % 10 = 0 then canon (m / 10) e else .num m (e + 1)

/-- An integer-valued JS number. -/
def ofInt (m : Int) : JSNum := .num m 0

/-- JS `a > b` (false whenever either side is NaN). -/
def jgt : JSNum → JSNum → Bool
  | .num m1 e1, .num m2 e2 => decide (m2 * 10 ^ e1 < m1 * 10 ^ e2)
  | _, _ => false

/-- JS `a === b` on numbers (false whenever either side is NaN). -/
def jeq : JSNum → JSNum → Bool
  | .num m1 e1, .num m2 e2 => decide (m1 * 10 ^ e2 = m2 * 10 ^ e1)
  | _, _ => false

/-- Whether the value is NaN. -/
def isNaN : JSNum → Bool
  | .nan => true
  | .num _ _ => false

end JSNum

/-! ## Character classes and string helpers

JavaScript regular-expression `\s` (as used by `cleanText`'s `\s+` collapse and
by `String.prototype.trim`): ASCII whitespace, NBSP, the Unicode space
separators, line/paragraph separators and the BOM. -/

/-- The JS `\s` character class. -/
def isJsWs (c : Char) : Bool :=
  let n := c.toNat
  n = 0x20 || (0x9 ≤ n && n ≤ 0xD) || n = 0xA0 || n = 0x1680 ||
  (0x2000 ≤ n && n ≤ 0x200A) || n = 0x2028 || n = 0x2029 ||
  n = 0x202F || n = 0x205F || n = 0x3000 || n = 0xFEFF

/-- The byte-order-mark code point U+FEFF. -/
def bomChar : Char := Char.ofNat 0xFEFF

/-- The NUL character. -/
def nulChar : Char := Char.ofNat 0x0

/-- The non-breaking space U+00A0. -/
def nbspChar : Char := Char.ofNat 0xA0

/-- `text.replace(/^﻿/, '')`: drop a single leading BOM. -/
def stripLeadingBom : List Char → List Char
  | c :: rest => if c = bomChar then rest else c :: rest
  | [] => []

/-- JS `trim()`: remove leading and trailing `\s` characters. -/
def jsTrim (l : List Char) : List Char :=
  ((l.dropWhile isJsWs).reverse.dropWhile isJsWs).reverse

/-- `text.replace(/\s+/g, ' ')`: collapse every run of whitespace to a single
space.  The flag records whether we are inside a whitespace run. -/
def collapseWsAux : Bool → List Char → List Char
  | _, [] => []
  | inRun, c :: rest =>
    if isJsWs c then
      if inRun then collapseWsAux true rest
      else ' ' :: collapseWsAux true rest
    else c :: collapseWsAux false rest

/-- `text.replace(/\s+/g, ' ')` on a whole string. -/
def collapseWs (l : List Char) : List Char := collapseWsAux false l

/-- `cleanText` from `csvParser.ts`: strip a leading BOM, collapse whitespace
runs to single spaces, remove NUL characters, then trim.  (The `if (!text)`
early return for the empty string yields the same result.) -/
def cleanText (l : List Char) : List Char :=
  jsTrim (((collapseWs (stripLeadingBom l))).filter (fun c => c ≠ nulChar))

/-- `line.split(';')`: split on semicolons, keeping empty segments. -/
def splitSemiAux : List Char → List Char → List (List Char)
  | [], acc => [acc.reverse]
  | c :: rest, acc =>
    if c = ';' then acc.reverse :: splitSemiAux rest []
    else splitSemiAux rest (c :: acc)

/-- `line.split(';')`. -/
def splitSemi (l : List Char) : List (List Char) := splitSemiAux l []

/-- `content.split(/\r?\n/)`: a line break is `\r\n` or a lone `\n`
(a lone `\r` does not break a line). -/
def splitLinesAux : List Char → List Char → List (List Char)
  | [], acc => [acc.reverse]
  | '\r' :: '\n' :: rest, acc => acc.reverse :: splitLinesAux rest []
  | '\n' :: rest, acc => acc.reverse :: splitLinesAux rest []
  | c :: rest, acc => splitLinesAux rest (c :: acc)

/-- `content.split(/\r?\n/)`. -/
def splitLines (l : List Char) : List (List Char) := splitLinesAux l []

/-- Whether `pre` is a leading segment of `l`. -/
def startsWithList : List Char → List Char → Bool
  | [], _ => true
  | _ :: _, [] => false
  | p :: ps, c :: cs => p = c && startsWithList ps cs

/-- Whether `sub` occurs as a contiguous segment of `l` (JS `includes`). -/
def containsList : List Char → List Char → Bool
  | l, sub =>
    match l with
    | [] => startsWithList sub []
    | _ :: rest => startsWithList sub l || containsList rest sub

/-! ## JS numeric parsing (`parseInt`, `parseFloat`) on decimal strings -/

/-- Decimal digit test. -/
def isDigitChar (c : Char) : Bool := '0' ≤ c && c ≤ '9'

/-- Numeric value of a decimal digit string. -/
def digitsVal (ds : List Char) : Nat :=
  ds.foldl (fun n c => 10 * n + (c.toNat - 48)) 0

/-- `parseInt(s)` with the default radix on decimal input: skip leading
whitespace, an optional sign, then read a maximal run of digits; NaN when no
digit is found.  (Radix prefixes do not occur in this data.) -/
def jsParseInt (l : List Char) : JSNum :=
  let l := l.dropWhile isJsWs
  let (sign, rest) :=
    match l with
    | '-' :: r => ((-1 : Int), r)
    | '+' :: r => ((1 : Int), r)
    | r => ((1 : Int), r)
  let ds := rest.takeWhile isDigitChar
  if ds.isEmpty then .nan else .num (sign * (digitsVal ds : Int)) 0

/-- `parseFloat(s)` on decimal input: skip leading whitespace, an optional
sign, an integer digit run, and an optional `.` followed by a fraction digit
run; NaN when no digit is found on either side of the point.  (Exponent
notation does not occur in this data.) -/
def jsParseFloat (l : List Char) : JSNum :=
  let l := l.dropWhile isJsWs
  let (sign, rest) :=
    match l with
    | '-' :: r => ((-1 : Int), r)
    | '+' :: r => ((1 : Int), r)
    | r => ((1 : Int), r)
  let intds := rest.takeWhile isDigitChar
  let rest2 := rest.dropWhile isDigitChar
  let fracds :=
    match rest2 with
    | '.' :: r2 => r2.takeWhile isDigitChar
    | _ => []
  if intds.isEmpty && fracds.isEmpty then .nan
  else
    JSNum.canon (sign * ((digitsVal intds * 10 ^ fracds.length + digitsVal fracds : Nat) : Int))
      fracds.length

/-- `s.replace(',', '.')`: replace the first comma only (string pattern). -/
def replaceFirstComma : List Char → List Char
  | [] => []
  | c :: rest => if c = ',' then '.' :: rest else c :: replaceFirstComma rest

/-! ## The Trip record and row decoding (`csvParser.ts`) -/

/-- A parsed trip (`Omit<Trip, 'id'>` from `database.ts`). -/
structure TripR where
  category : List Char
  startDate : List Char
  odometerStart : JSNum
  startPosition : List Char
  endDate : List Char
  odometerEnd : JSNum
  endDestination : List Char
  duration : List Char
  distance : JSNum
  fuelConsumption : List Char
  title : List Char
  batteryConsumption : List Char
  batteryRegeneration : List Char
  notes : List Char
  deriving DecidableEq, Repr

/-- `values[i] || dflt`: the element when present and non-empty (the empty
string is falsy), otherwise the default. -/
def fieldOr (values : List (List Char)) (i : Nat) (dflt : List Char) : List Char :=
  match values.getD i [] with
  | [] => dflt
  | v => v

/-- The category literal "Okategoriserat". -/
def okatLit : List Char := "Okategoriserat".toList

/-- The category literal "Privat". -/
def privatLit : List Char := "Privat".toList

/-- The category literal "Arbete". -/
def arbeteLit : List Char := "Arbete".toList

/-- Build the trip object from the semicolon-split field values, applying the
optional `Okategoriserat → Privat` remapping (shared by both parser branches). -/
def decodeRow (values : List (List Char)) (mapOkategoriseratToPrivat : Bool) : TripR :=
  let category0 := cleanText (fieldOr values 0 [])
  let category :=
    if mapOkategoriseratToPrivat && category0 = okatLit then privatLit else category0
  { category := category
    startDate := cleanText (fieldOr values 1 [])
    odometerStart := jsParseInt (cleanText (fieldOr values 2 ['0']))
    startPosition := cleanText (fieldOr values 3 [])
    endDate := cleanText (fieldOr values 4 [])
    odometerEnd := jsParseInt (cleanText (fieldOr values 5 ['0']))
    endDestination := cleanText (fieldOr values 6 [])
    duration := cleanText (fieldOr values 7 [])
    distance := jsParseFloat (replaceFirstComma (cleanText (fieldOr values 8 ['0'])))
    fuelConsumption := cleanText (fieldOr values 9 [])
    title := cleanText (fieldOr values 10 [])
    batteryConsumption := cleanText (fieldOr values 11 [])
    batteryRegeneration := cleanText (fieldOr values 12 [])
    notes := cleanText (fieldOr values 13 []) }

/-- Outcome of processing one (already trimmed, non-blank) row. -/
inductive RowResult where
  | accepted (t : TripR)
  /-- ≥ 14 fields but failed a validation rule: an error is recorded and the
  skipped counter is incremented. -/
  | invalid
  /-- fewer than 14 fields: the row falls through the `values.length >= 14`
  guard and is dropped without touching the counters. -/
  | short
  deriving DecidableEq, Repr

/-- Process one trimmed row (shared body of the two parser branches): split on
semicolons, require at least 14 fields, decode, then apply the validation
rules in source order. -/
def processRow (row : List Char) (remap : Bool) : RowResult :=
  let values := splitSemi row
  if 14 ≤ values.length then
    let t := decodeRow values remap
    if t.category = [] || t.startDate = [] then .invalid
    else if t.odometerStart.jgt t.odometerEnd && t.distance.jgt (JSNum.ofInt 0) then .invalid
    else if t.odometerStart.jeq (JSNum.ofInt 0) && t.odometerEnd.jeq (JSNum.ofInt 0)
        && t.distance.jeq (JSNum.ofInt 0) then .invalid
    else .accepted t
  else .short

/-- What `parseCSVData` computes: the accepted trips (in source order) and the
`skippedLines` counter.  The TypeScript function resolves the promise with the
trips only; the counter is computed and logged but never returned. -/
structure ParseResult where
  trips : List TripR
  skippedLines : Nat
  deriving DecidableEq, Repr

/-- Fold the shared per-row loop over a list of row segments: trim each, skip
blanks, and tally the outcome of `processRow`. -/
def processSegments : List (List Char) → Bool → ParseResult
  | [], _ => ⟨[], 0⟩
  | seg :: rest, remap =>
    let tail := processSegments rest remap
    let row := jsTrim seg
    if row.isEmpty then tail
    else
      match processRow row remap with
      | .accepted t => ⟨t :: tail.trips, tail.skippedLines⟩
      | .invalid => ⟨tail.trips, tail.skippedLines + 1⟩
      | .short => tail

/-- Does one of the three category keywords, followed by `;`, start here? -/
def keywordHere (l : List Char) : Bool :=
  startsWithList (privatLit ++ [';']) l ||
  startsWithList (arbeteLit ++ [';']) l ||
  startsWithList (okatLit ++ [';']) l

/-- `content.substring(content.search(/(Privat|Arbete|Okategoriserat);/))`:
the suffix starting at the first keyword occurrence, when one exists. -/
def findKeywordSuffix : List Char → Option (List Char)
  | [] => none
  | c :: rest =>
    if keywordHere (c :: rest) then some (c :: rest)
    else findKeywordSuffix rest

/-- `dataContent.split(/(?=(?:Privat|Arbete|Okategoriserat);)/)`: split
immediately before every keyword occurrence after position zero (a zero-width
match at position zero does not produce a leading empty segment). -/
def legacySplitGo : List Char → List Char → List (List Char)
  | [], acc => [acc.reverse]
  | c :: rest, acc =>
    if keywordHere (c :: rest) then acc.reverse :: legacySplitGo rest [c]
    else legacySplitGo rest (c :: acc)

/-- Split the legacy single-line data content into rows. -/
def legacySplit : List Char → List (List Char)
  | [] => [[]]
  | c :: rest => legacySplitGo rest [c]

/-- The whole-content pre-clean of `parseCSVData`: strip a leading BOM, remove
NUL characters, replace non-breaking spaces with plain spaces. -/
def cleanContent (csvContent : List Char) : List Char :=
  ((stripLeadingBom csvContent).filter (fun c => c ≠ nulChar)).map
    (fun c => if c = nbspChar then ' ' else c)

/-- `parseCSVData` from `csvParser.ts`: pre-clean, split on line breaks; with
more than two lines, drop the header line and process each remaining line
(standard format); otherwise locate the first category keyword and split the
tail before every keyword occurrence (legacy single-line format), resolving
with no trips when no keyword occurs. -/
def parseCSVData (csvContent : List Char) (remap : Bool) : ParseResult :=
  let cleaned := cleanContent csvContent
  let lines := splitLines cleaned
  if 2 < lines.length then
    processSegments (lines.drop 1) remap
  else
    match findKeywordSuffix cleaned with
    | none => ⟨[], 0⟩
    | some dataContent => processSegments (legacySplit dataContent) remap

/-! ## Encoding detection (upload route handler)

The route reads the uploaded file as raw bytes and decodes:
`FF FE` → UTF-16LE, `FE FF` → UTF-16BE, `EF BB BF` → UTF-8 (mark stripped),
otherwise strict UTF-8 with fallback to ISO-8859-1 and then Windows-1252.
Bytes are `Nat` (< 256); decoded text is a list of code points.  The
`TextDecoder` instances used in the fallbacks are non-fatal, so each fallback
decoder is a total function and the chain always produces text. -/

/-- Group bytes into little-endian 16-bit units; a dangling final byte is an
incomplete unit and decodes to U+FFFD (non-fatal `TextDecoder('utf-16le')`). -/
def bytesToUnitsLE : List Nat → List Nat
  | b0 :: b1 :: rest => (b0 + 256 * b1) :: bytesToUnitsLE rest
  | [_] => [0xFFFD]
  | [] => []

/-- Group bytes into big-endian 16-bit units (same dangling-byte rule). -/
def bytesToUnitsBE : List Nat → List Nat
  | b0 :: b1 :: rest => (256 * b0 + b1) :: bytesToUnitsBE rest
  | [_] => [0xFFFD]
  | [] => []

/-- A UTF-16 high (leading) surrogate code unit. -/
def isHiSurrogate (u : Nat) : Bool := 0xD800 ≤ u && u ≤ 0xDBFF

/-- A UTF-16 low (trailing) surrogate code unit. -/
def isLoSurrogate (u : Nat) : Bool := 0xDC00 ≤ u && u ≤ 0xDFFF

/-- Combine UTF-16 code units into code points: a high surrogate followed by a
low surrogate pairs up; an unpaired surrogate becomes U+FFFD (non-fatal). -/
def utf16UnitsToCodepoints : List Nat → List Nat
  | [] => []
  | [u] => if isHiSurrogate u || isLoSurrogate u then [0xFFFD] else [u]
  | u :: v :: rest =>
    if isHiSurrogate u then
      if isLoSurrogate v then
        (0x10000 + (u - 0xD800) * 0x400 + (v - 0xDC00)) :: utf16UnitsToCodepoints rest
      else 0xFFFD :: utf16UnitsToCodepoints (v :: rest)
    else if isLoSurrogate u then 0xFFFD :: utf16UnitsToCodepoints (v :: rest)
    else u :: utf16UnitsToCodepoints (v :: rest)

/-- `new TextDecoder('utf-16le').decode`. -/
def decodeUtf16le (bytes : List Nat) : List Nat :=
  utf16UnitsToCodepoints (bytesToUnitsLE bytes)

/-- `new TextDecoder('utf-16be').decode`. -/
def decodeUtf16be (bytes : List Nat) : List Nat :=
  utf16UnitsToCodepoints (bytesToUnitsBE bytes)

/-- A UTF-8 continuation byte. -/
def isContByte (b : Nat) : Bool := 0x80 ≤ b && b ≤ 0xBF

/-- Read one UTF-8-encoded code point: the decoded scalar and the remaining
bytes, or `none` at a malformed sequence (overlongs and surrogates rejected). -/
def utf8DecodeOne : List Nat → Option (Nat × List Nat)
  | [] => none
  | b :: rest =>
    if b < 0x80 then some (b, rest)
    else if 0xC2 ≤ b && b ≤ 0xDF then
      match rest with
      | b1 :: r1 =>
        if isContByte b1 then some ((b - 0xC0) * 0x40 + (b1 - 0x80), r1) else none
      | _ => none
    else if 0xE0 ≤ b && b ≤ 0xEF then
      match rest with
      | b1 :: b2 :: r2 =>
        let lowOk :=
          if b = 0xE0 then 0xA0 ≤ b1 && b1 ≤ 0xBF
          else if b = 0xED then 0x80 ≤ b1 && b1 ≤ 0x9F
          else isContByte b1
        if lowOk && isContByte b2 then
          some ((b - 0xE0) * 0x1000 + (b1 - 0x80) * 0x40 + (b2 - 0x80), r2)
        else none
      | _ => none
    else if 0xF0 ≤ b && b ≤ 0xF4 then
      match rest with
      | b1 :: b2 :: b3 :: r3 =>
        let lowOk :=
          if b = 0xF0 then 0x90 ≤ b1 && b1 ≤ 0xBF
          else if b = 0xF4 then 0x80 ≤ b1 && b1 ≤ 0x8F
          else isContByte b1
        if lowOk && isContByte b2 && isContByte b3 then
          some ((b - 0xF0) * 0x40000 + (b1 - 0x80) * 0x1000 + (b2 - 0x80) * 0x40 + (b3 - 0x80), r3)
        else none
      | _ => none
    else none

/-- Strict UTF-8 decoding (`TextDecoder('utf-8', { fatal: true })`): fails on
any malformed sequence. -/
def decodeUtf8Strict (bytes : List Nat) : Option (List Nat) :=
  match h : utf8DecodeOne bytes with
  | none => if bytes.isEmpty then some [] else none
  | some (cp, rest) =>
    match decodeUtf8Strict rest with
    | some tail => some (cp :: tail)
    | none => none
termination_by bytes.length
decreasing_by
  cases bytes with
  | nil => simp [utf8DecodeOne] at h
  | cons b bs =>
    simp only [utf8DecodeOne] at h
    repeat' split at h
    all_goals simp_all
    all_goals omega

/-- Non-fatal UTF-8 decoding (`TextDecoder('utf-8')` after a BOM): a malformed
sequence yields U+FFFD and decoding resumes at the next byte. -/
def decodeUtf8Replace (bytes : List Nat) : List Nat :=
  match h : utf8DecodeOne bytes with
  | some (cp, rest) => cp :: decodeUtf8Replace rest
  | none =>
    match bytes with
    | [] => []
    | _ :: rest => 0xFFFD :: decodeUtf8Replace rest
termination_by bytes.length
decreasing_by
  · cases bytes with
    | nil => simp [utf8DecodeOne] at h
    | cons b bs =>
      simp only [utf8DecodeOne] at h
      repeat' split at h
      all_goals simp_all
      all_goals omega
  · simp

/-- ISO-8859-1: each byte maps to the code point of the same value; total, so
the decode never fails and the Windows-1252 fallback is never reached. -/
def decodeIso88591 (bytes : List Nat) : List Nat := bytes

/-- The Windows-1252 mapping for one byte: bytes 0x80–0x9F map through the
dedicated table, all others to the same code point. -/
def win1252Byte (b : Nat) : Nat :=
  if b = 0x80 then 0x20AC else if b = 0x82 then 0x201A else if b = 0x83 then 0x192
  else if b = 0x84 then 0x201E else if b = 0x85 then 0x2026 else if b = 0x86 then 0x2020
  else if b = 0x87 then 0x2021 else if b = 0x88 then 0x2C6 else if b = 0x89 then 0x2030
  else if b = 0x8A then 0x160 else if b = 0x8B then 0x2039 else if b = 0x8C then 0x152
  else if b = 0x8E then 0x17D else if b = 0x91 then 0x2018 else if b = 0x92 then 0x2019
  else if b = 0x93 then 0x201C else if b = 0x94 then 0x201D else if b = 0x95 then 0x2022
  else if b = 0x96 then 0x2013 else if b = 0x97 then 0x2014 else if b = 0x98 then 0x2DC
  else if b = 0x99 then 0x2122 else if b = 0x9A then 0x161 else if b = 0x9B then 0x203A
  else if b = 0x9C then 0x153 else if b = 0x9E then 0x17E else if b = 0x9F then 0x178
  else b

/-- Windows-1252 decoding: total, accepts any byte sequence. -/
def decodeWindows1252 (bytes : List Nat) : List Nat := bytes.map win1252Byte

/-- Do the first two bytes equal `a, b`?  (`uint8Array[i]` on a too-short
array is `undefined` and compares unequal.) -/
def hasPrefix2 (bytes : List Nat) (a b : Nat) : Bool :=
  match bytes with
  | x :: y :: _ => x = a && y = b
  | _ => false

/-- Do the first three bytes equal `a, b, c`? -/
def hasPrefix3 (bytes : List Nat) (a b c : Nat) : Bool :=
  match bytes with
  | x :: y :: z :: _ => x = a && y = b && z = c
  | _ => false

/-- The encoding-detection chain of the upload route handler, in source order.
Every branch is a total function, so the detector returns text for every
input.  (The ISO-8859-1 decode is total, hence it never falls through to
Windows-1252; the final branch is kept to mirror the source's `try`/`catch`
chain.) -/
def detectAndDecode (bytes : List Nat) : List Nat :=
  if hasPrefix2 bytes 0xFF 0xFE then decodeUtf16le (bytes.drop 2)
  else if hasPrefix2 bytes 0xFE 0xFF then decodeUtf16be (bytes.drop 2)
  else if hasPrefix3 bytes 0xEF 0xBB 0xBF then decodeUtf8Replace (bytes.drop 3)
  else
    match decodeUtf8Strict bytes with
    | some text => text
    | none => decodeIso88591 bytes

/-! ## The store: errors and `insertTrip` (`database.ts`)

The trips table stores the fourteen trip fields with an autoincrement id and
`UNIQUE(startDate, odometerStart, odometerEnd)`; every column is `NOT NULL`.
The store contents are the rows plus the next rowid.  A low-level engine
failure is an object with optional `code`, `errno` and `message`
(the `sqlite3` error shape inspected by the source). -/

/-- The error object shape inspected by `insertTrip`'s catch block. -/
structure SqlError where
  code : Option (List Char)
  errno : Option Int
  message : Option (List Char)
  deriving DecidableEq, Repr

/-- `errorObj.message?.includes(sub)` (false when `message` is absent). -/
def msgIncludes (e : SqlError) (sub : List Char) : Bool :=
  match e.message with
  | none => false
  | some m => containsList m sub

/-- The corruption result codes recognized by the source. -/
def corruptionCodes : List (List Char) :=
  ["SQLITE_CORRUPT".toList, "SQLITE_NOTADB".toList, "SQLITE_CANTOPEN".toList]

/-- `isSQLiteCorruptionError` from `database.ts`: some recognized code equals
`error.code` or occurs in the message, or the message contains one of the two
corruption phrases.  (The model's errors are always non-null objects, so the
`typeof` guard is vacuous.) -/
def isSQLiteCorruptionError (e : SqlError) : Bool :=
  corruptionCodes.any fun code =>
    e.code == some code || msgIncludes e code ||
    msgIncludes e "database disk image is malformed".toList ||
    msgIncludes e "file is not a database".toList

/-- Stored trips plus the next autoincrement rowid. -/
structure TripStore where
  rows : List (Nat × TripR)
  nextId : Nat
  deriving DecidableEq, Repr

/-- Equality of the natural key `(startDate, odometerStart, odometerEnd)`, the
columns of the `UNIQUE` constraint; numeric columns compare by value. -/
def sameNaturalKey (a b : TripR) : Bool :=
  a.startDate == b.startDate && a.odometerStart.jeq b.odometerStart &&
  a.odometerEnd.jeq b.odometerEnd

/-- Whether the store already holds a row with this trip's natural key. -/
def keyPresent (st : TripStore) (t : TripR) : Bool :=
  st.rows.any fun r => sameNaturalKey r.2 t

/-- Binding NaN for a `NOT NULL` numeric column stores NULL and violates the
constraint, so the engine rejects a trip with a NaN numeric field. -/
def hasNaNNumeric (t : TripR) : Bool :=
  t.odometerStart.isNaN || t.odometerEnd.isNaN || t.distance.isNaN

/-- The `SQLITE_CONSTRAINT` error raised on a `UNIQUE` violation. -/
def uniqueViolationError : SqlError :=
  { code := some "SQLITE_CONSTRAINT".toList
    errno := some 19
    message := some "SQLITE_CONSTRAINT: UNIQUE constraint failed: trips.startDate, trips.odometerStart, trips.odometerEnd".toList }

/-- The `SQLITE_CONSTRAINT` error raised on a `NOT NULL` violation. -/
def notNullViolationError : SqlError :=
  { code := some "SQLITE_CONSTRAINT".toList
    errno := some 19
    message := some "SQLITE_CONSTRAINT: NOT NULL constraint failed: trips.odometerStart".toList }

/-- Result of the low-level `INSERT` statement. -/
inductive EngineResult where
  | ok (lastID : Nat) (st : TripStore)
  | err (e : SqlError)
  deriving DecidableEq, Repr

/-- The engine's behaviour for the trips `INSERT`, determined by the schema:
a NaN numeric field violates `NOT NULL`; a natural-key collision violates
`UNIQUE`; otherwise the row is appended under the next rowid. -/
def engineInsert (st : TripStore) (t : TripR) : EngineResult :=
  if hasNaNNumeric t then .err notNullViolationError
  else if keyPresent st t then .err uniqueViolationError
  else .ok st.nextId { rows := st.rows ++ [(st.nextId, t)], nextId := st.nextId + 1 }

/-- The statements `insertTrip` issues on the handle, in order. -/
inductive SqlCmd where
  | beginTx
  | insertRow
  | commitTx
  | rollbackTx
  deriving DecidableEq, Repr

/-- What `insertTrip` produces for the caller. -/
inductive InsertOutcome where
  /-- resolved with `result.lastID`. -/
  | inserted (id : Nat)
  /-- resolved with `false`: the duplicate sentinel. -/
  | duplicateFalse
  /-- threw `DatabaseCorruptionError`. -/
  | threwCorruption
  /-- rethrew the original error. -/
  | threwOther (e : SqlError)
  deriving DecidableEq, Repr

/-- One `insertTrip` call: the caller-visible outcome, the store contents
afterwards (committed or rolled back), and the issued statements. -/
structure InsertStep where
  outcome : InsertOutcome
  st : TripStore
  trace : List SqlCmd
  deriving DecidableEq, Repr

/-- The body of `insertTrip` applied to a low-level insert result: commit on
success; on failure roll back, then classify — corruption signature first,
then the duplicate codes (`SQLITE_CONSTRAINT_UNIQUE`, `SQLITE_CONSTRAINT`,
`errno 19`), otherwise rethrow. -/
def insertTripCore (st : TripStore) (low : EngineResult) : InsertStep :=
  match low with
  | .ok id st2 => ⟨.inserted id, st2, [.beginTx, .insertRow, .commitTx]⟩
  | .err e =>
    let tr : List SqlCmd := [.beginTx, .insertRow, .rollbackTx]
    if isSQLiteCorruptionError e then ⟨.threwCorruption, st, tr⟩
    else if e.code == some "SQLITE_CONSTRAINT_UNIQUE".toList
        || e.code == some "SQLITE_CONSTRAINT".toList
        || e.errno == some (19 : Int) then ⟨.duplicateFalse, st, tr⟩
    else ⟨.threwOther e, st, tr⟩

/-- `insertTrip` from `database.ts` against the deterministic engine. -/
def insertTrip (st : TripStore) (t : TripR) : InsertStep :=
  insertTripCore st (engineInsert st t)

/-! ## The import tally loop (upload route `POST`) -/

/-- The tallies the route reports back. -/
structure ImportCounts where
  imported : Nat
  duplicates : Nat
  errors : Nat
  deriving DecidableEq, Repr

/-- The per-trip loop of the upload route: `insertTrip` each parsed trip in
order; a non-`false` result counts as imported, `false` as duplicate, and a
thrown error is caught and counted (processing continues). -/
def importTrips (st : TripStore) : List TripR → TripStore × ImportCounts
  | [] => (st, ⟨0, 0, 0⟩)
  | t :: ts =>
    let step := insertTrip st t
    let (stf, c) := importTrips step.st ts
    match step.outcome with
    | .inserted _ => (stf, { c with imported := c.imported + 1 })
    | .duplicateFalse => (stf, { c with duplicates := c.duplicates + 1 })
    | .threwCorruption => (stf, { c with errors := c.errors + 1 })
    | .threwOther _ => (stf, { c with errors := c.errors + 1 })

/-! ## Store startup: validation and recovery (`database.ts`)

The filesystem is an association list from paths to file contents.  A file is
either an opaque byte blob (a possibly corrupt database image) or a structured
database with a set of tables and its trip rows.  Operation outcomes that
depend on the outside world (whether `open`/`exec` and `renameSync` succeed,
what the connectivity probe and `PRAGMA integrity_check` report) are fixed
environment parameters; `Date.now()` timestamps are abstracted to the attempt
number. -/

/-- Contents of a file: raw bytes or a database image. -/
inductive DbContent where
  | blob (tag : Nat)
  | db (tables : List (List Char)) (tripRows : List TripR)
  deriving DecidableEq, Repr

/-- A filesystem: association list from paths to contents. -/
abbrev FileStore : Type := List (List Char × DbContent)

/-- Look a path up. -/
def fileLookup : FileStore → List Char → Option DbContent
  | [], _ => none
  | (p, c) :: rest, q => if p = q then some c else fileLookup rest q

/-- `fs.existsSync`. -/
def fileExists (fs : FileStore) (p : List Char) : Bool :=
  (fileLookup fs p).isSome

/-- Remove a path. -/
def removeFile : FileStore → List Char → FileStore
  | [], _ => []
  | (p, c) :: rest, q => if p = q then removeFile rest q else (p, c) :: removeFile rest q

/-- Write contents at a path (replacing any previous entry). -/
def setFile (fs : FileStore) (p : List Char) (c : DbContent) : FileStore :=
  (p, c) :: removeFile fs p

/-- `fs.renameSync src dst`. -/
def renameFile (fs : FileStore) (src dst : List Char) : FileStore :=
  match fileLookup fs src with
  | some c => setFile (removeFile fs src) dst c
  | none => fs

/-- The database path `data/trips.db`. -/
def dbPath : List Char := "data/trips.db".toList

/-- The backup path `data/trips.corrupted.<timestamp>.db`; the timestamp is
abstracted to the recovery attempt number. -/
def backupPath (ts : Nat) : List Char :=
  "data/trips.corrupted.".toList ++ Nat.toDigits 10 ts ++ ".db".toList

/-- The trips table name. -/
def tripsTable : List Char := "trips".toList

/-- The settings table name. -/
def settingsTable : List Char := "settings".toList

/-- The table names visible through `sqlite_master` for given file contents
(a corrupt blob exposes none; its probe/integrity oracles fail instead). -/
def contentTables : DbContent → List (List Char)
  | .blob _ => []
  | .db tables _ => tables

/-- `CREATE TABLE IF NOT EXISTS trips / settings` applied to file contents
(on a healthy image; `exec` on a corrupt blob would throw, but every
environment of interest classifies such a file corrupt before this point). -/
def addRequiredTables : DbContent → DbContent
  | .blob tag => .blob tag
  | .db tables rows =>
    let t1 := if tables.contains tripsTable then tables else tables ++ [tripsTable]
    let t2 := if t1.contains settingsTable then t1 else t1 ++ [settingsTable]
    .db t2 rows

/-- The observations `validateDatabase` makes on the opened handle. -/
structure DbProbe where
  /-- the `SELECT 1` probe (and the subsequent queries) succeed. -/
  probeOk : Bool
  /-- the first row of `PRAGMA integrity_check`, when the query returns one. -/
  integrityRow : Option (List Char)
  /-- all table names in the opened file. -/
  tableNames : List (List Char)
  deriving Repr

/-- Result of `validateDatabase`. -/
structure ValidationResult where
  isHealthy : Bool
  isFreshDatabase : Bool
  deriving DecidableEq, Repr

/-- `validateDatabase` from `database.ts`: any query failure is caught as
unhealthy; an integrity result other than `ok` is unhealthy; with fewer than
the two required tables, a file that did not pre-exist is a fresh database and
a pre-existing file is corrupt; otherwise healthy. -/
def validateDatabase (p : DbProbe) (fileExistedBefore : Bool) : ValidationResult :=
  if !p.probeOk then ⟨false, false⟩
  else if !(p.integrityRow == some "ok".toList) then ⟨false, false⟩
  else if ((p.tableNames.filter fun n => n = tripsTable || n = settingsTable).length < 2) then
    if !fileExistedBefore then ⟨true, true⟩ else ⟨false, false⟩
  else ⟨true, false⟩

/-- A fresh, empty, schema-valid database image. -/
def freshSchemaDb : DbContent := .db [tripsTable, settingsTable] []

/-- `recoverDatabase` from `database.ts`: when the database file exists,
rename it to the timestamped backup path; then open a fresh file at the
original path and create the schema.  Returns the filesystem on success and
`none` on failure (the `catch` returns `null`), paired with the filesystem as
left behind by the attempt. -/
def recoverDatabase (fs : FileStore) (ts : Nat) (renameOk openOk : Bool) :
    Option FileStore × FileStore :=
  if fileExists fs dbPath then
    if !renameOk then (none, fs)
    else
      let fs1 := renameFile fs dbPath (backupPath ts)
      if openOk then
        let fs2 := setFile fs1 dbPath freshSchemaDb
        (some fs2, fs2)
      else (none, fs1)
  else
    if openOk then
      let fs2 := setFile fs dbPath freshSchemaDb
      (some fs2, fs2)
    else (none, fs)

/-- The environment of one `getDatabase` initialization. -/
structure InitEnv where
  fs : FileStore
  /-- `open` (and `exec` on a healthy handle) succeeds. -/
  openOk : Bool
  /-- `fs.renameSync` succeeds. -/
  renameOk : Bool
  /-- the `SELECT 1` probe and the validation queries succeed. -/
  probeOk : Bool
  /-- the first row of `PRAGMA integrity_check`. -/
  integrityRow : Option (List Char)
  deriving Repr

/-- Result of `getDatabase`: a ready store over the resulting filesystem, or a
fatal initialization error. -/
inductive InitResult where
  | ready (fs : FileStore)
  | fatal (fs : FileStore)
  deriving DecidableEq, Repr

/-- The contents `open` sees at `dbPath`: the existing file, or a fresh empty
database created by opening a nonexistent path. -/
def openedContent (fs : FileStore) : DbContent :=
  match fileLookup fs dbPath with
  | some c => c
  | none => .db [] []

/-- `getDatabase` from `database.ts` (first initialization): record whether
the file pre-existed, open it, validate; on an unhealthy validation close and
run `recoverDatabase`; a failed recovery throws, and the outer catch runs
`recoverDatabase` once more before failing for good.  A healthy validation
runs the idempotent `createTables` (fresh or existing alike). -/
def getDatabase (env : InitEnv) : InitResult :=
  let fileExistedBefore := fileExists env.fs dbPath
  if !env.openOk then
    -- `open` threw: the outer catch runs recovery (which reopens, and fails again)
    match recoverDatabase env.fs 2 env.renameOk env.openOk with
    | (some fs2, _) => .ready fs2
    | (none, fs2) => .fatal fs2
  else
    let opened := openedContent env.fs
    let fs1 := if fileExistedBefore then env.fs else setFile env.fs dbPath opened
    let v := validateDatabase ⟨env.probeOk, env.integrityRow, contentTables opened⟩
      fileExistedBefore
    if !v.isHealthy then
      match recoverDatabase fs1 1 env.renameOk env.openOk with
      | (some fs2, _) => .ready fs2
      | (none, fs2) =>
        -- `throw new Error('Database recovery failed')`, caught by the outer
        -- catch, which recovers once more
        match recoverDatabase fs2 2 env.renameOk env.openOk with
        | (some fs3, _) => .ready fs3
        | (none, fs3) => .fatal fs3
    else
      .ready (setFile fs1 dbPath (addRequiredTables opened))

/-! ## `getTrips` (`database.ts`) -/

/-- Lexicographic (binary-collation) comparison of text values, as SQLite
compares `TEXT` with the default collation. -/
def lexLt : List Char → List Char → Bool
  | [], [] => false
  | [], _ :: _ => true
  | _ :: _, [] => false
  | a :: as, b :: bs =>
    if a.toNat < b.toNat then true
    else if b.toNat < a.toNat then false
    else lexLt as bs

/-- `a <= b` in the same collation. -/
def lexLe (a b : List Char) : Bool := !lexLt b a

/-- Whether a year is a leap year (Gregorian rules, as `Date` uses). -/
def isLeapYear (y : Nat) : Bool :=
  (y % 4 = 0 && y % 100 ≠ 0) || y % 400 = 0

/-- Days in a month. -/
def daysInMonth (y m : Nat) : Nat :=
  if m = 1 || m = 3 || m = 5 || m = 7 || m = 8 || m = 10 || m = 12 then 31
  else if m = 4 || m = 6 || m = 9 || m = 11 then 30
  else if isLeapYear y then 29
  else 28

/-- Parse `yyyy-mm-dd` (exactly 4-2-2 digits). -/
def parseIsoDate (l : List Char) : Option (Nat × Nat × Nat) :=
  match l with
  | [y1, y2, y3, y4, '-', m1, m2, '-', d1, d2] =>
    if isDigitChar y1 && isDigitChar y2 && isDigitChar y3 && isDigitChar y4 &&
        isDigitChar m1 && isDigitChar m2 && isDigitChar d1 && isDigitChar d2 then
      some (digitsVal [y1, y2, y3, y4], digitsVal [m1, m2], digitsVal [d1, d2])
    else none
  | _ => none

/-- Left-pad a digit string with zeros to the given width. -/
def padZeros (width : Nat) (ds : List Char) : List Char :=
  List.replicate (width - ds.length) '0' ++ ds

/-- Format `(y, m, d)` as `yyyy-mm-dd`. -/
def formatIsoDate : Nat × Nat × Nat → List Char
  | (y, m, d) =>
    padZeros 4 (Nat.toDigits 10 y) ++ '-' :: padZeros 2 (Nat.toDigits 10 m) ++
      '-' :: padZeros 2 (Nat.toDigits 10 d)

/-- The day after `(y, m, d)` with month and year rollover. -/
def nextCalendarDay : Nat × Nat × Nat → Nat × Nat × Nat
  | (y, m, d) =>
    if d < daysInMonth y m then (y, m, d + 1)
    else if m < 12 then (y, m + 1, 1)
    else (y + 1, 1, 1)

/-- The `dateTo` bound of `getTrips`: `new Date(dateTo)` plus one day,
formatted back to `yyyy-mm-dd` (the `toISOString().split('T')[0]` of the
source, with the process in UTC).  On text that is not a plain ISO date the
source's `toISOString` throws; such filters are outside every claim and map
to the empty bound here. -/
def addOneDay (dateTo : List Char) : List Char :=
  match parseIsoDate dateTo with
  | some ymd => formatIsoDate (nextCalendarDay ymd)
  | none => []

/-- The `WHERE` clause built by `getTrips`: each filter contributes its
condition only when the parameter is non-empty; `dateTo` is translated to a
strict upper bound on the following day. -/
def tripMatches (category dateFrom dateTo : List Char) (t : TripR) : Bool :=
  (if category.isEmpty then true else t.category == category) &&
  (if dateFrom.isEmpty then true else lexLe dateFrom t.startDate) &&
  (if dateTo.isEmpty then true else lexLt t.startDate (addOneDay dateTo))

/-- `ORDER BY startDate ASC` as a Boolean comparison on rows. -/
def rowLeAsc (a b : Nat × TripR) : Bool := lexLe a.2.startDate b.2.startDate

/-- `ORDER BY startDate DESC` as a Boolean comparison on rows. -/
def rowLeDesc (a b : Nat × TripR) : Bool := lexLe b.2.startDate a.2.startDate

/-- The row comparison `getTrips` sorts by: ascending exactly when the
`sortOrder` parameter is the string `asc`, descending otherwise. -/
def rowOrder (sortOrder : List Char) : (Nat × TripR) → (Nat × TripR) → Bool :=
  if sortOrder = "asc".toList then rowLeAsc else rowLeDesc

/-- What `getTrips` returns: one page plus the unpaginated total. -/
structure TripsPage where
  trips : List (Nat × TripR)
  total : Nat
  deriving DecidableEq, Repr

/-- `getTrips` from `database.ts`: filter by the `WHERE` clause, order by
`startDate` in the requested direction, return the page at
`OFFSET (page-1)*limit LIMIT limit`, and the `COUNT(*)` of the same filter
without pagination. -/
def getTrips (st : TripStore) (page limit : Nat) (category dateFrom dateTo : List Char)
    (sortOrder : List Char) : TripsPage :=
  let offset := (page - 1) * limit
  let filtered := st.rows.filter fun r => tripMatches category dateFrom dateTo r.2
  let sorted := filtered.mergeSort (rowOrder sortOrder)
  ⟨(sorted.drop offset).take limit, filtered.length⟩

/-! ## Claims about the record parser -/

/-- A 14-field row with reversed odometer readings (100 > 50) and positive
distance 10.0. -/
def reversedPositiveRow : List Char :=
  "Privat;2024-01-01;100;A;2024-01-01;50;B;1h 0m;10.0;5 l;Trip;0 kWh;0 kWh;x".toList

/-- The same row with distance 0. -/
def reversedZeroRow : List Char :=
  "Privat;2024-01-01;100;A;2024-01-01;50;B;1h 0m;0;5 l;Trip;0 kWh;0 kWh;x".toList

/-- Claim C5: for every row with at least 14 semicolon-delimited fields whose
decoded category and startDate are non-empty, the parser accepts the row if
and only if it is not the case that `odometerStart > odometerEnd` with
`distance > 0`, and not the case that `odometerStart`, `odometerEnd` and
`distance` are all zero; in particular the row with readings 100 → 50 and
distance 10.0 is rejected while the same row with distance 0 is accepted. -/
theorem parser_row_acceptance_rule :
    (∀ (row : List Char) (remap : Bool) (t : TripR),
      decodeRow (splitSemi row) remap = t →
      14 ≤ (splitSemi row).length →
      t.category ≠ [] → t.startDate ≠ [] →
      (processRow row remap = .accepted t ↔
        ¬(t.odometerStart.jgt t.odometerEnd = true ∧ t.distance.jgt (JSNum.ofInt 0) = true) ∧
        ¬(t.odometerStart.jeq (JSNum.ofInt 0) = true ∧ t.odometerEnd.jeq (JSNum.ofInt 0) = true ∧
          t.distance.jeq (JSNum.ofInt 0) = true))) ∧
    processRow reversedPositiveRow false = .invalid ∧
    processRow reversedZeroRow false = .accepted (decodeRow (splitSemi reversedZeroRow) false) := by
  refine ⟨?_, by decide, by decide⟩
  intro row remap t ht h14 hcat hdate
  simp only [processRow, ht, if_pos h14]
  cases hgt : t.odometerStart.jgt t.odometerEnd <;>
    cases hd : t.distance.jgt (JSNum.ofInt 0) <;>
    cases he1 : t.odometerStart.jeq (JSNum.ofInt 0) <;>
    cases he2 : t.odometerEnd.jeq (JSNum.ofInt 0) <;>
    cases he3 : t.distance.jeq (JSNum.ofInt 0) <;>
    simp [hcat, hdate, hgt, hd, he1, he2, he3]

/-- Witness for C5: the universal rule applied to the concrete accepted row. -/
theorem parser_row_acceptance_rule_witness :
    processRow reversedZeroRow false = .accepted (decodeRow (splitSemi reversedZeroRow) false) :=
  (parser_row_acceptance_rule.1 reversedZeroRow false _ rfl (by decide) (by decide)
    (by decide)).mpr (by decide)

/-- The legacy single-line sample from the specification. -/
def legacySample : List Char :=
  "Header stuff Privat;2024-01-01;100;A;2024-01-01;150;B;1h 0m;50.0;5 l;Trip;0 kWh;0 kWh;".toList

/-- The one trip the legacy sample decodes to. -/
def legacySampleTrip : TripR :=
  { category := "Privat".toList
    startDate := "2024-01-01".toList
    odometerStart := JSNum.num 100 0
    startPosition := "A".toList
    endDate := "2024-01-01".toList
    odometerEnd := JSNum.num 150 0
    endDestination := "B".toList
    duration := "1h 0m".toList
    distance := JSNum.num 50 0
    fuelConsumption := "5 l".toList
    title := "Trip".toList
    batteryConsumption := "0 kWh".toList
    batteryRegeneration := "0 kWh".toList
    notes := [] }

set_option maxRecDepth 100000

/-- Claim C6: the sample legacy single-line input (one line, so the legacy
branch runs; header discarded up to the first category keyword; rows split
before every keyword occurrence) parses to exactly one accepted trip with
category `Privat` and distance 50.0, and nothing skipped. -/
theorem legacy_single_line_sample :
    parseCSVData legacySample false = ⟨[legacySampleTrip], 0⟩ ∧
    legacySampleTrip.category = privatLit ∧
    legacySampleTrip.distance = JSNum.num 50 0 := by decide

/-- A three-line input whose two data rows have fewer than 14 fields. -/
def shortRowsInput : List Char := "h1\nc;2;3\nd;5;6".toList

/-- Counterexample to claim C9: the parser drops a row with fewer than 14
semicolon-delimited fields without counting it — both data rows here are
rejected for having 3 < 14 fields, yet the skipped/invalid tally stays 0. -/
theorem short_rows_not_tallied :
    parseCSVData shortRowsInput false = ⟨[], 0⟩ ∧
    2 < (splitLines (cleanContent shortRowsInput)).length ∧
    (splitSemi (jsTrim ((splitLines (cleanContent shortRowsInput)).getD 1 []))).length < 14 := by
  decide

/-- Claim C9 (amended): the parser returns the accepted trips and is total
(malformed rows are never fatal); a row with ≥ 14 fields that fails
validation is counted in the skipped/invalid tally, but a row with fewer
than 14 fields is dropped silently — it contributes neither a trip nor a
count to the tally (which itself is only logged, not returned). -/
theorem short_rows_silently_dropped :
    (∀ (row : List Char) (remap : Bool),
      (splitSemi row).length < 14 → processRow row remap = .short) ∧
    (∀ (seg : List Char) (rest : List (List Char)) (remap : Bool),
      (jsTrim seg = [] ∨ processRow (jsTrim seg) remap = .short) →
      processSegments (seg :: rest) remap = processSegments rest remap) := by
  constructor
  · intro row remap hlt
    simp only [processRow]
    rw [if_neg (by omega)]
  · intro seg rest remap h
    rcases h with h | h
    · simp [processSegments, h]
    · by_cases he : (jsTrim seg).isEmpty
      · simp [processSegments, he]
      · simp [processSegments, he, h]

/-- Witness for C9 (amended): a concrete 2-field row is classified short and
leaves the fold unchanged. -/
theorem short_rows_silently_dropped_witness :
    processRow "a;b".toList false = .short ∧
    processSegments ["a;b".toList] false = processSegments [] false :=
  ⟨short_rows_silently_dropped.1 "a;b".toList false (by decide),
   short_rows_silently_dropped.2 "a;b".toList [] false
     (Or.inr (short_rows_silently_dropped.1 (jsTrim "a;b".toList) false (by decide)))⟩

/-! ## Claim about the encoding detector -/

/-- Claim C7: the encoding detector follows the ordered first-match-wins
chain — a `FF FE` prefix decodes the rest as UTF-16LE, `FE FF` as UTF-16BE,
`EF BB BF` as UTF-8 with the mark stripped, and with no mark it attempts
strict UTF-8 and falls back to ISO-8859-1 (a total decode, so the final
Windows-1252 step never fires) — and, every branch being a total function,
it returns decoded text for every input. -/
theorem encoding_detection_chain :
    (∀ rest : List Nat, detectAndDecode (0xFF :: 0xFE :: rest) = decodeUtf16le rest) ∧
    (∀ rest : List Nat, detectAndDecode (0xFE :: 0xFF :: rest) = decodeUtf16be rest) ∧
    (∀ rest : List Nat, detectAndDecode (0xEF :: 0xBB :: 0xBF :: rest) = decodeUtf8Replace rest) ∧
    (∀ bytes : List Nat,
      hasPrefix2 bytes 0xFF 0xFE = false → hasPrefix2 bytes 0xFE 0xFF = false →
      hasPrefix3 bytes 0xEF 0xBB 0xBF = false →
      detectAndDecode bytes = (decodeUtf8Strict bytes).getD (decodeIso88591 bytes)) := by
  refine ⟨?_, ?_, ?_, ?_⟩
  · intro rest
    simp [detectAndDecode, hasPrefix2]
  · intro rest
    simp [detectAndDecode, hasPrefix2, hasPrefix3]
  · intro rest
    simp [detectAndDecode, hasPrefix2, hasPrefix3]
  · intro bytes h1 h2 h3
    simp only [detectAndDecode, h1, h2, h3, Bool.false_eq_true, if_false]
    cases hd : decodeUtf8Strict bytes <;> simp [Option.getD]

/-- Witness for C7: the no-mark branch applied to the single byte `A`. -/
theorem encoding_detection_chain_witness :
    detectAndDecode [0x41] = (decodeUtf8Strict [0x41]).getD (decodeIso88591 [0x41]) :=
  encoding_detection_chain.2.2.2 [0x41] (by decide) (by decide) (by decide)

/-! ## Claims about `insertTrip` and import idempotence -/

/-- The `UNIQUE` violation is classified as a duplicate, not as corruption. -/
theorem insertTripCore_err_unique (st : TripStore) :
    insertTripCore st (.err uniqueViolationError) =
      ⟨.duplicateFalse, st, [.beginTx, .insertRow, .rollbackTx]⟩ := rfl

/-- The `NOT NULL` violation is classified as a duplicate, not as corruption. -/
theorem insertTripCore_err_notNull (st : TripStore) :
    insertTripCore st (.err notNullViolationError) =
      ⟨.duplicateFalse, st, [.beginTx, .insertRow, .rollbackTx]⟩ := rfl

/-- A trip with a NaN numeric field resolves to the duplicate sentinel and
leaves the store unchanged. -/
theorem insertTrip_of_nan (st : TripStore) (t : TripR) (h : hasNaNNumeric t = true) :
    insertTrip st t = ⟨.duplicateFalse, st, [.beginTx, .insertRow, .rollbackTx]⟩ := by
  simp only [insertTrip, engineInsert, h, if_true]
  exact insertTripCore_err_notNull st

/-- Inserting a trip whose natural key is already present resolves to the
duplicate sentinel and leaves the store unchanged. -/
theorem insertTrip_of_keyPresent (st : TripStore) (t : TripR)
    (hn : hasNaNNumeric t = false) (hk : keyPresent st t = true) :
    insertTrip st t = ⟨.duplicateFalse, st, [.beginTx, .insertRow, .rollbackTx]⟩ := by
  simp only [insertTrip, engineInsert, hn, hk, Bool.false_eq_true, if_false, if_true]
  exact insertTripCore_err_unique st

/-- Inserting a trip with a fresh natural key appends the row under the next
rowid and resolves with that rowid. -/
theorem insertTrip_of_new (st : TripStore) (t : TripR)
    (hn : hasNaNNumeric t = false) (hk : keyPresent st t = false) :
    insertTrip st t =
      ⟨.inserted st.nextId, ⟨st.rows ++ [(st.nextId, t)], st.nextId + 1⟩,
        [.beginTx, .insertRow, .commitTx]⟩ := by
  simp [insertTrip, engineInsert, hn, hk, insertTripCore]

/-- `insertTrip` only ever appends rows. -/
theorem insertTrip_rows_extend (st : TripStore) (t : TripR) :
    ∃ ext, (insertTrip st t).st.rows = st.rows ++ ext := by
  cases hn : hasNaNNumeric t
  · cases hk : keyPresent st t
    · exact ⟨[(st.nextId, t)], by rw [insertTrip_of_new st t hn hk]⟩
    · exact ⟨[], by rw [insertTrip_of_keyPresent st t hn hk]; simp⟩
  · exact ⟨[], by rw [insertTrip_of_nan st t hn]; simp⟩

/-- The final store of an import is the final store of importing the tail
from the post-insert store, whatever the head's outcome. -/
theorem importTrips_cons_fst (st : TripStore) (t : TripR) (ts : List TripR) :
    (importTrips st (t :: ts)).1 = (importTrips (insertTrip st t).st ts).1 := by
  simp only [importTrips]
  cases (insertTrip st t).outcome <;> simp

/-- An import only ever appends rows. -/
theorem importTrips_rows_extend (ts : List TripR) :
    ∀ st : TripStore, ∃ ext, (importTrips st ts).1.rows = st.rows ++ ext := by
  induction ts with
  | nil => intro st; exact ⟨[], by simp [importTrips]⟩
  | cons t rest ih =>
    intro st
    obtain ⟨e1, h1⟩ := insertTrip_rows_extend st t
    obtain ⟨e2, h2⟩ := ih (insertTrip st t).st
    exact ⟨e1 ++ e2, by rw [importTrips_cons_fst, h2, h1, List.append_assoc]⟩

/-- A key present in a store stays present after rows are appended. -/
theorem keyPresent_of_extend (st st' : TripStore) (t : TripR)
    (h : ∃ ext, st'.rows = st.rows ++ ext) (hk : keyPresent st t = true) :
    keyPresent st' t = true := by
  obtain ⟨ext, he⟩ := h
  simp only [keyPresent, he, List.any_append, Bool.or_eq_true]
  exact Or.inl hk

/-- A trip without NaN numeric fields matches its own natural key. -/
theorem sameNaturalKey_self (t : TripR) (h : hasNaNNumeric t = false) :
    sameNaturalKey t t = true := by
  simp only [hasNaNNumeric, Bool.or_eq_false_iff] at h
  obtain ⟨⟨h1, h2⟩, h3⟩ := h
  simp only [sameNaturalKey, beq_self_eq_true, Bool.and_eq_true, true_and]
  cases hs : t.odometerStart with
  | nan => rw [hs] at h1; simp [JSNum.isNaN] at h1
  | num m e =>
    cases he : t.odometerEnd with
    | nan => rw [he] at h2; simp [JSNum.isNaN] at h2
    | num m2 e2 => simp [JSNum.jeq]

/-- After importing a batch, every batch trip either has a NaN numeric field
or its natural key is present in the resulting store. -/
theorem importTrips_key_established (ts : List TripR) :
    ∀ (st : TripStore) (t : TripR), t ∈ ts →
      hasNaNNumeric t = true ∨ keyPresent (importTrips st ts).1 t = true := by
  induction ts with
  | nil => intro st t ht; cases ht
  | cons t0 rest ih =>
    intro st t ht
    rcases List.mem_cons.mp ht with rfl | hmem
    · cases hn : hasNaNNumeric t
      · right
        have hstep : keyPresent (insertTrip st t).st t = true := by
          cases hk : keyPresent st t
          · rw [insertTrip_of_new st t hn hk]
            simp only [keyPresent, List.any_append, Bool.or_eq_true]
            exact Or.inr (by simp [sameNaturalKey_self t hn])
          · rw [insertTrip_of_keyPresent st t hn hk]
            exact hk
        rw [importTrips_cons_fst]
        exact keyPresent_of_extend _ _ t (importTrips_rows_extend rest _) hstep
      · exact Or.inl rfl
    · rw [importTrips_cons_fst]
      exact ih (insertTrip st t0).st t hmem

/-- When every batch trip is NaN-keyed or already present, the import changes
nothing and reports every trip as a duplicate. -/
theorem importTrips_all_duplicates (ts : List TripR) :
    ∀ st : TripStore, (∀ t ∈ ts, hasNaNNumeric t = true ∨ keyPresent st t = true) →
      importTrips st ts = (st, ⟨0, ts.length, 0⟩) := by
  induction ts with
  | nil => intro st _; rfl
  | cons t0 rest ih =>
    intro st h
    have hstep : insertTrip st t0 = ⟨.duplicateFalse, st, [.beginTx, .insertRow, .rollbackTx]⟩ := by
      rcases h t0 (List.mem_cons_self t0 rest) with hn | hk
      · exact insertTrip_of_nan st t0 hn
      · cases hn : hasNaNNumeric t0
        · exact insertTrip_of_keyPresent st t0 hn hk
        · exact insertTrip_of_nan st t0 hn
    have hrest : importTrips st rest = (st, ⟨0, rest.length, 0⟩) :=
      ih st fun t ht => h t (List.mem_cons_of_mem t0 ht)
    simp [importTrips, hstep, hrest, List.length_cons]

/-- Claim C1: `insertTrip` issues begin–insert–commit on success and
begin–insert–rollback (store unchanged) on any failure; a failure matching a
corruption signature raises the distinct corruption error; a natural-key
collision resolves to the duplicate sentinel `false`; and a fresh key resolves
to the new rowid with the row committed. -/
theorem insertTrip_contract :
    (∀ (st : TripStore) (id : Nat) (st2 : TripStore),
      insertTripCore st (.ok id st2) = ⟨.inserted id, st2, [.beginTx, .insertRow, .commitTx]⟩) ∧
    (∀ (st : TripStore) (e : SqlError),
      (insertTripCore st (.err e)).trace = [.beginTx, .insertRow, .rollbackTx] ∧
      (insertTripCore st (.err e)).st = st) ∧
    (∀ (st : TripStore) (e : SqlError), isSQLiteCorruptionError e = true →
      (insertTripCore st (.err e)).outcome = .threwCorruption) ∧
    (∀ (st : TripStore) (t : TripR), hasNaNNumeric t = false → keyPresent st t = true →
      insertTrip st t = ⟨.duplicateFalse, st, [.beginTx, .insertRow, .rollbackTx]⟩) ∧
    (∀ (st : TripStore) (t : TripR), hasNaNNumeric t = false → keyPresent st t = false →
      insertTrip st t =
        ⟨.inserted st.nextId, ⟨st.rows ++ [(st.nextId, t)], st.nextId + 1⟩,
          [.beginTx, .insertRow, .commitTx]⟩) := by
  refine ⟨fun st id st2 => rfl, ?_, ?_, insertTrip_of_keyPresent, insertTrip_of_new⟩
  · intro st e
    simp only [insertTripCore]
    constructor <;> (repeat' split) <;> rfl
  · intro st e h
    simp [insertTripCore, h]

/-- A concrete corruption-signature error. -/
def corruptErrorSample : SqlError :=
  ⟨some "SQLITE_CORRUPT".toList, some 11, some "database disk image is malformed".toList⟩

/-- Witness for C1: the contract applied to a corruption error, a duplicate
insert and a fresh insert, at concrete stores. -/
theorem insertTrip_contract_witness :
    (insertTripCore ⟨[], 1⟩ (.err corruptErrorSample)).outcome = .threwCorruption ∧
    insertTrip ⟨[(1, legacySampleTrip)], 2⟩ legacySampleTrip =
      ⟨.duplicateFalse, ⟨[(1, legacySampleTrip)], 2⟩, [.beginTx, .insertRow, .rollbackTx]⟩ ∧
    insertTrip ⟨[], 1⟩ legacySampleTrip =
      ⟨.inserted 1, ⟨[(1, legacySampleTrip)], 2⟩, [.beginTx, .insertRow, .commitTx]⟩ :=
  ⟨insertTrip_contract.2.2.1 ⟨[], 1⟩ corruptErrorSample (by decide),
   insertTrip_contract.2.2.2.1 ⟨[(1, legacySampleTrip)], 2⟩ legacySampleTrip
     (by decide) (by decide),
   insertTrip_contract.2.2.2.2 ⟨[], 1⟩ legacySampleTrip (by decide) (by decide)⟩

/-- Claim C2: importing the same parsed batch a second time is idempotent —
every row of the second import resolves to the duplicate sentinel, the second
import's imported (and error) count is zero, its duplicate count is the whole
batch, and the stored rows are unchanged. -/
theorem reimport_idempotent (st0 : TripStore) (trips : List TripR) :
    importTrips (importTrips st0 trips).1 trips =
      ((importTrips st0 trips).1, ⟨0, trips.length, 0⟩) ∧
    (importTrips (importTrips st0 trips).1 trips).1.rows.length =
      (importTrips st0 trips).1.rows.length := by
  have h := importTrips_all_duplicates trips (importTrips st0 trips).1
    (fun t ht => importTrips_key_established trips st0 t ht)
  exact ⟨h, by rw [h]⟩

/-! ## Claims about startup health classification and recovery -/

/-- Removing one path leaves every other path's lookup unchanged. -/
theorem fileLookup_removeFile_ne (fs : FileStore) (p q : List Char) (h : p ≠ q) :
    fileLookup (removeFile fs p) q = fileLookup fs q := by
  induction fs with
  | nil => rfl
  | cons e rest ih =>
    obtain ⟨ep, ec⟩ := e
    rcases eq_or_ne ep p with rfl | hp
    · simp [removeFile, fileLookup, h, ih]
    · rcases eq_or_ne ep q with rfl | hq
      · simp [removeFile, fileLookup, hp]
      · simp [removeFile, fileLookup, hp, hq, ih]

/-- A written path reads back its contents. -/
theorem fileLookup_setFile_same (fs : FileStore) (p : List Char) (c : DbContent) :
    fileLookup (setFile fs p c) p = some c := by
  simp [setFile, fileLookup]

/-- Writing one path leaves every other path's lookup unchanged. -/
theorem fileLookup_setFile_ne (fs : FileStore) (p q : List Char) (c : DbContent) (h : p ≠ q) :
    fileLookup (setFile fs p c) q = fileLookup fs q := by
  simp only [setFile, fileLookup, if_neg h]
  exact fileLookup_removeFile_ne fs p q h

/-- The backup path never collides with the database path. -/
theorem dbPath_ne_backupPath (ts : Nat) : dbPath ≠ backupPath ts := by
  intro h
  have hl := congrArg List.length h
  have h13 : (dbPath).length = 13 := by decide
  have h21 : ("data/trips.corrupted.".toList).length = 21 := by decide
  have h3 : (".db".toList).length = 3 := by decide
  rw [h13] at hl
  rw [backupPath, List.length_append, List.length_append, h21, h3] at hl
  omega

/-- Claim C3: opening the store on a file whose integrity check fails renames
the file (bytes preserved) to the timestamped backup path, creates a fresh
schema-valid file at the original path, and initialization succeeds when the
rename and recreate succeed; when the recovery's rename fails, initialization
fails fatally. -/
theorem corrupt_db_recovery :
    (∀ (env : InitEnv) (c : DbContent),
      env.openOk = true → env.renameOk = true → env.probeOk = true →
      ¬(env.integrityRow = some "ok".toList) →
      fileLookup env.fs dbPath = some c →
      ∃ fs2, getDatabase env = .ready fs2 ∧
        fileLookup fs2 (backupPath 1) = some c ∧
        fileLookup fs2 dbPath = some freshSchemaDb) ∧
    (∀ env : InitEnv,
      env.openOk = true → env.renameOk = false → env.probeOk = true →
      ¬(env.integrityRow = some "ok".toList) →
      fileExists env.fs dbPath = true →
      getDatabase env = .fatal env.fs) := by
  constructor
  · intro env c h1 h2 h3 h4 h5
    have hex : fileExists env.fs dbPath = true := by simp [fileExists, h5]
    have hbeq : (env.integrityRow == some "ok".toList) = false := beq_eq_false_iff_ne.mpr h4
    refine ⟨setFile (renameFile env.fs dbPath (backupPath 1)) dbPath freshSchemaDb, ?_, ?_, ?_⟩
    · simp only [getDatabase, h1, hex, Bool.not_true, Bool.false_eq_true, if_false, if_true,
        openedContent, h5, validateDatabase, h3, hbeq, recoverDatabase, h2]
      simp
    · rw [fileLookup_setFile_ne _ _ _ _ (dbPath_ne_backupPath 1)]
      simp only [renameFile, h5]
      exact fileLookup_setFile_same _ _ _
    · exact fileLookup_setFile_same _ _ _
  · intro env h1 h2 h3 h4 hex
    have hbeq : (env.integrityRow == some "ok".toList) = false := beq_eq_false_iff_ne.mpr h4
    simp only [getDatabase, h1, hex, Bool.not_true, Bool.false_eq_true, if_false, if_true,
      validateDatabase, h3, hbeq, recoverDatabase, h2]
    simp [hex]

/-- A concrete environment holding a corrupt image at the database path. -/
def corruptEnvSample : InitEnv :=
  ⟨[(dbPath, .blob 7)], true, true, true, some "not ok".toList⟩

/-- Witness for C3: recovery on a concrete corrupt file. -/
theorem corrupt_db_recovery_witness :
    ∃ fs2, getDatabase corruptEnvSample = .ready fs2 ∧
      fileLookup fs2 (backupPath 1) = some (.blob 7) ∧
      fileLookup fs2 dbPath = some freshSchemaDb :=
  corrupt_db_recovery.1 corruptEnvSample (.blob 7) rfl rfl rfl (by decide) (by decide)

/-- Claim C4: with a passing integrity check but missing required tables, the
store is classified corrupt exactly when the file pre-existed and
healthy-fresh exactly when it did not; any integrity result other than `ok`
classifies corrupt; and on a non-pre-existing file `getDatabase` creates the
tables with no recovery (no backup path is touched). -/
theorem startup_health_classification :
    (∀ (p : DbProbe) (fe : Bool), p.probeOk = true → p.integrityRow = some "ok".toList →
      (p.tableNames.filter fun n => n = tripsTable || n = settingsTable).length < 2 →
      validateDatabase p fe = ⟨!fe, !fe⟩) ∧
    (∀ (p : DbProbe) (fe : Bool), p.probeOk = true → ¬(p.integrityRow = some "ok".toList) →
      validateDatabase p fe = ⟨false, false⟩) ∧
    (∀ env : InitEnv, env.openOk = true → env.probeOk = true →
      env.integrityRow = some "ok".toList → fileExists env.fs dbPath = false →
      ∃ fs2, getDatabase env = .ready fs2 ∧
        fileLookup fs2 dbPath = some freshSchemaDb ∧
        ∀ ts : Nat, fileLookup fs2 (backupPath ts) = fileLookup env.fs (backupPath ts)) := by
  refine ⟨?_, ?_, ?_⟩
  · intro p fe h1 h2 h3
    simp only [validateDatabase, h1, h2]
    cases fe <;> simp [h3]
  · intro p fe h1 h2
    have hbeq : (p.integrityRow == some "ok".toList) = false := beq_eq_false_iff_ne.mpr h2
    simp [validateDatabase, h1, hbeq]
    intro hcontra
    exact absurd hcontra h2
  · intro env h1 h2 h3 h4
    have h5 : fileLookup env.fs dbPath = none := by
      cases hl : fileLookup env.fs dbPath with
      | none => rfl
      | some c =>
        simp only [fileExists, hl, Option.isSome_some] at h4
        exact Bool.noConfusion h4
    have hadd : addRequiredTables (DbContent.db [] []) = freshSchemaDb := by decide
    refine ⟨setFile (setFile env.fs dbPath (.db [] [])) dbPath freshSchemaDb, ?_, ?_, ?_⟩
    · simp only [getDatabase, h1, h4, Bool.not_true, Bool.false_eq_true, if_false, if_true,
        openedContent, h5, validateDatabase, h2, h3, contentTables]
      simp [hadd]
    · exact fileLookup_setFile_same _ _ _
    · intro ts
      rw [fileLookup_setFile_ne _ _ _ _ (dbPath_ne_backupPath ts),
        fileLookup_setFile_ne _ _ _ _ (dbPath_ne_backupPath ts)]

/-- A concrete fresh-install environment: no database file yet. -/
def freshEnvSample : InitEnv := ⟨[], true, true, true, some "ok".toList⟩

/-- Witness for C4: the classification applied to a corrupt-probe and a
fresh-probe, and table creation on a concrete fresh environment. -/
theorem startup_health_classification_witness :
    validateDatabase ⟨true, some "ok".toList, []⟩ true = ⟨false, false⟩ ∧
    validateDatabase ⟨true, some "ok".toList, []⟩ false = ⟨true, true⟩ ∧
    validateDatabase ⟨true, some "bad".toList, [tripsTable, settingsTable]⟩ false =
      ⟨false, false⟩ ∧
    ∃ fs2, getDatabase freshEnvSample = .ready fs2 ∧
      fileLookup fs2 dbPath = some freshSchemaDb ∧
      ∀ ts : Nat, fileLookup fs2 (backupPath ts) = fileLookup freshEnvSample.fs (backupPath ts) :=
  ⟨startup_health_classification.1 ⟨true, some "ok".toList, []⟩ true rfl rfl (by decide),
   startup_health_classification.1 ⟨true, some "ok".toList, []⟩ false rfl rfl (by decide),
   startup_health_classification.2.1 ⟨true, some "bad".toList, [tripsTable, settingsTable]⟩
     false rfl (by decide),
   startup_health_classification.2.2 freshEnvSample rfl rfl rfl (by decide)⟩

/-! ## Claims about `getTrips` -/

/-- Characters are determined by their code points. -/
theorem char_eq_of_toNat_eq (a b : Char) (h : a.toNat = b.toNat) : a = b := by
  rw [← Char.ofNat_toNat a, ← Char.ofNat_toNat b, h]

/-- Unfolding of `lexLt` on nonempty lists. -/
theorem lexLt_cons_iff (a b : Char) (as bs : List Char) :
    lexLt (a :: as) (b :: bs) = true ↔
      a.toNat < b.toNat ∨ (a.toNat = b.toNat ∧ lexLt as bs = true) := by
  simp only [lexLt]
  by_cases h1 : a.toNat < b.toNat
  · simp [h1]
  · by_cases h2 : b.toNat < a.toNat
    · rw [if_neg h1, if_pos h2]
      constructor
      · intro h; exact Bool.noConfusion h
      · intro h; rcases h with h | ⟨he, _⟩ <;> omega
    · rw [if_neg h1, if_neg h2]
      have he : a.toNat = b.toNat := by omega
      simp [he]

/-- `lexLt` is transitive. -/
theorem lexLt_trans : ∀ (a b c : List Char),
    lexLt a b = true → lexLt b c = true → lexLt a c = true := by
  intro a
  induction a with
  | nil =>
    intro b c hab hbc
    cases b with
    | nil => exact Bool.noConfusion hab
    | cons bh bt =>
      cases c with
      | nil => exact Bool.noConfusion hbc
      | cons ch ct => rfl
  | cons ah atl ih =>
    intro b c hab hbc
    cases b with
    | nil => exact Bool.noConfusion hab
    | cons bh bt =>
      cases c with
      | nil => exact Bool.noConfusion hbc
      | cons ch ct =>
        rw [lexLt_cons_iff] at hab hbc ⊢
        rcases hab with h | ⟨he1, ht1⟩ <;> rcases hbc with h2 | ⟨he2, ht2⟩
        · exact Or.inl (by omega)
        · exact Or.inl (by omega)
        · exact Or.inl (by omega)
        · exact Or.inr ⟨by omega, ih bt ct ht1 ht2⟩

/-- `lexLt` is asymmetric. -/
theorem lexLt_asymm : ∀ (a b : List Char), lexLt a b = true → lexLt b a = false := by
  intro a
  induction a with
  | nil =>
    intro b hab
    cases b with
    | nil => exact Bool.noConfusion hab
    | cons bh bt => rfl
  | cons ah atl ih =>
    intro b hab
    cases b with
    | nil => exact Bool.noConfusion hab
    | cons bh bt =>
      rw [lexLt_cons_iff] at hab
      simp only [lexLt]
      rcases hab with h | ⟨he, ht⟩
      · rw [if_neg (by omega), if_pos (by omega)]
      · rw [if_neg (by omega), if_neg (by omega)]
        exact ih bt ht

/-- Lists that are mutually not-less are equal. -/
theorem lexLt_eq_of_not : ∀ (a b : List Char),
    lexLt a b = false → lexLt b a = false → a = b := by
  intro a
  induction a with
  | nil =>
    intro b h1 h2
    cases b with
    | nil => rfl
    | cons bh bt => exact Bool.noConfusion h1
  | cons ah atl ih =>
    intro b h1 h2
    cases b with
    | nil => exact Bool.noConfusion h2
    | cons bh bt =>
      simp only [lexLt] at h1 h2
      by_cases hc1 : ah.toNat < bh.toNat
      · rw [if_pos hc1] at h1; exact Bool.noConfusion h1
      · by_cases hc2 : bh.toNat < ah.toNat
        · rw [if_pos hc2] at h2; exact Bool.noConfusion h2
        · rw [if_neg hc1, if_neg hc2] at h1
          rw [if_neg hc2, if_neg hc1] at h2
          rw [char_eq_of_toNat_eq ah bh (by omega), ih bt h1 h2]

/-- `lexLe` is transitive. -/
theorem lexLe_trans (a b c : List Char) (h1 : lexLe a b = true) (h2 : lexLe b c = true) :
    lexLe a c = true := by
  simp only [lexLe, Bool.not_eq_true'] at h1 h2 ⊢
  cases hca : lexLt c a
  · rfl
  · cases hab : lexLt a b
    · have heq : a = b := lexLt_eq_of_not a b hab h1
      rw [heq] at hca
      rw [hca] at h2
      exact Bool.noConfusion h2
    · have hcb := lexLt_trans c a b hca hab
      rw [hcb] at h2
      exact Bool.noConfusion h2

/-- `lexLe` is total. -/
theorem lexLe_total (a b : List Char) : (lexLe a b || lexLe b a) = true := by
  simp only [lexLe]
  cases h : lexLt b a
  · simp
  · simp [lexLt_asymm b a h]

/-- The requested row order is transitive, whatever the `sortOrder` string. -/
theorem rowOrder_trans (so : List Char) : ∀ a b c : Nat × TripR,
    rowOrder so a b = true → rowOrder so b c = true → rowOrder so a c = true := by
  intro a b c
  simp only [rowOrder]
  split
  · exact fun h1 h2 => lexLe_trans _ _ _ h1 h2
  · exact fun h1 h2 => lexLe_trans _ _ _ h2 h1

/-- The requested row order is total, whatever the `sortOrder` string. -/
theorem rowOrder_total (so : List Char) : ∀ a b : Nat × TripR,
    (rowOrder so a b || rowOrder so b a) = true := by
  intro a b
  simp only [rowOrder]
  split
  · exact lexLe_total _ _
  · rw [Bool.or_comm]
    exact lexLe_total _ _

/-- The trip sitting exactly on the `dateTo` boundary. -/
def boundaryTrip : TripR :=
  { legacySampleTrip with startDate := "2024-01-31".toList, endDate := "2024-01-31".toList }

/-- A store holding only the boundary trip. -/
def boundaryStore : TripStore := ⟨[(1, boundaryTrip)], 2⟩

/-- Claim C8: for every page, page size, filter combination and sort order,
`getTrips` reports a total that counts exactly the rows matching the same
filter, independent of pagination; the returned page is ordered by
`startDate` in the requested direction; and the `dateTo` filter is inclusive
of the whole end day — with `dateTo` 2024-01-31 a trip whose `startDate` is
exactly 2024-01-31 is returned and counted. -/
theorem getTrips_contract :
    (∀ (st : TripStore) (page limit : Nat) (category dateFrom dateTo sortOrder : List Char),
      (getTrips st page limit category dateFrom dateTo sortOrder).total =
        (st.rows.filter fun r => tripMatches category dateFrom dateTo r.2).length) ∧
    (∀ (st : TripStore) (page limit : Nat) (category dateFrom dateTo sortOrder : List Char),
      List.Pairwise (fun a b => rowOrder sortOrder a b = true)
        (getTrips st page limit category dateFrom dateTo sortOrder).trips) ∧
    getTrips boundaryStore 1 20 [] [] "2024-01-31".toList "desc".toList =
      ⟨[(1, boundaryTrip)], 1⟩ := by
  refine ⟨fun _ _ _ _ _ _ _ => rfl, ?_, ?_⟩
  · intro st page limit category dateFrom dateTo sortOrder
    have hs := List.sorted_mergeSort (rowOrder_trans sortOrder) (rowOrder_total sortOrder)
      (st.rows.filter fun r => tripMatches category dateFrom dateTo r.2)
    simp only [getTrips]
    exact List.Pairwise.sublist ((List.take_sublist _ _).trans (List.drop_sublist _ _)) hs
  · have hfil : (boundaryStore.rows.filter fun r =>
        tripMatches [] [] ("2024-01-31".toList) r.2) = [(1, boundaryTrip)] := by decide
    simp only [getTrips, hfil, List.mergeSort_singleton]
    rfl

/-- The empty store. -/
def emptyStore : TripStore := ⟨[], 1⟩

/-- Claim C10: every `sortOrder` other than the exact string `asc` — the
default `desc` included — behaves as descending: the whole result equals the
`desc` result; the total is identical for any two sort orders (the filter does
not depend on the sort order); and `asc` alone yields an ascending page. -/
theorem sortOrder_fallback_desc :
    (∀ (st : TripStore) (page limit : Nat) (category dateFrom dateTo sortOrder : List Char),
      sortOrder ≠ "asc".toList →
      getTrips st page limit category dateFrom dateTo sortOrder =
        getTrips st page limit category dateFrom dateTo "desc".toList) ∧
    (∀ (st : TripStore) (page limit : Nat) (category dateFrom dateTo so1 so2 : List Char),
      (getTrips st page limit category dateFrom dateTo so1).total =
        (getTrips st page limit category dateFrom dateTo so2).total) ∧
    (∀ (st : TripStore) (page limit : Nat) (category dateFrom dateTo : List Char),
      List.Pairwise (fun a b => rowLeAsc a b = true)
        (getTrips st page limit category dateFrom dateTo "asc".toList).trips) := by
  refine ⟨?_, fun _ _ _ _ _ _ _ _ => rfl, ?_⟩
  · intro st page limit category dateFrom dateTo sortOrder hso
    have h1 : rowOrder sortOrder = rowLeDesc := by rw [rowOrder, if_neg hso]
    have h2 : rowOrder "desc".toList = rowLeDesc := by rw [rowOrder, if_neg (by decide)]
    simp only [getTrips, h1, h2]
  · intro st page limit category dateFrom dateTo
    have ha : rowOrder "asc".toList = rowLeAsc := by rw [rowOrder, if_pos rfl]
    have hs := List.sorted_mergeSort (rowOrder_trans "asc".toList)
      (rowOrder_total "asc".toList)
      (st.rows.filter fun r => tripMatches category dateFrom dateTo r.2)
    rw [← ha]
    simp only [getTrips]
    exact List.Pairwise.sublist ((List.take_sublist _ _).trans (List.drop_sublist _ _)) hs

/-- Witness for C10: an unrecognized sort order behaves as `desc` on a
concrete query. -/
theorem sortOrder_fallback_desc_witness :
    getTrips emptyStore 1 20 [] [] [] "weird".toList =
      getTrips emptyStore 1 20 [] [] [] "desc".toList :=
  sortOrder_fallback_desc.1 emptyStore 1 20 [] [] [] "weird".toList (by decide)
